import Mathlib

/-!
# bastify: relay connection lifecycle

A shallow embedding of `bastion.go`, `main.go` and `socks_server.go`.

* `NewBastion`, `ForwardTo` (the retry loop, the idle watcher goroutines and
  the shared close timer) are embedded as pure functions over an explicit
  bastion state; the outcomes of the network operations (`ssh.Dial`,
  `client.Dial`, the agent socket, the key file) are supplied by an oracle.
* The `Dial` closure of `main` is embedded as a function on a world made of
  the `bastions` map and a heap of bastion objects; its check-and-insert runs
  under the mutex, so calls are sequenced.
-/

namespace Bastify

/-! ## Data model -/

/-- Go `error` values: errors coming out of the external collaborators
(`net`, `ssh`, `ioutil`), and errors wrapped by `fmt.Errorf("...%w", err)`. -/
inductive GoError where
  | ext (code : Nat)
  | wrap (msg : String) (inner : GoError)
deriving DecidableEq, Repr

deriving instance DecidableEq for Except

/-- Identity of a `*ssh.Client` (a tunnel handle). -/
abbrev Handle := Nat

/-- Identity of a `net.Conn` returned by `client.Dial`. -/
abbrev Stream := Nat

/-- Identity of a `*bastion`. -/
abbrev Ptr := Nat

/-- The entries of `ssh.ClientConfig.Auth`. -/
inductive AuthMethod where
  | agentSigners
  | publicKeys (signer : Nat)
deriving DecidableEq, Repr

/-- The fields of `ssh.ClientConfig` set by `NewBastion`; the host key callback
is always `ssh.InsecureIgnoreHostKey()`. -/
structure ClientConfig where
  User : String
  Auth : List AuthMethod
deriving DecidableEq, Repr

/-- A `*time.Timer`: whether it is running, and the duration of its last
`Reset` (`NewTimer(d)` starts it running). -/
structure Timer where
  armed : Bool
  d : Nat
deriving DecidableEq, Repr

/-- Go `time.NewTimer(d)`. -/
def Timer.NewTimer (d : Nat) : Timer := ⟨true, d⟩

/-- Go `t.Stop()`: the timer no longer runs. -/
def Timer.Stop (t : Timer) : Timer := { t with armed := false }

/-- Go `t.Reset(d)`: the timer runs again, for `d`. -/
def Timer.Reset (t : Timer) (d : Nat) : Timer := { t with armed := true, d := d }

/-- The `bastion` struct of `bastion.go` (the logger is left out). `client` is
the `atomic.Value`: `none` while nothing has been stored. -/
structure bastion where
  config : ClientConfig
  addr : String
  client : Option Handle
  closeTimer : Timer
  retries : Int
  Active : Bool
deriving DecidableEq, Repr

/-- A bastion together with the run-time objects that hang off it:
* `watchers`: the idle watcher goroutines blocked on `s.closeTimer.C`, each
  with the `client` it captured;
* `nHandles`: how many `*ssh.Client` this bastion has dialed; they are the
  handles `0 .. nHandles - 1`;
* `closed`: the handles on which `Close()` has been called. -/
structure BastionRt where
  s : bastion
  watchers : List Handle
  nHandles : Nat
  closed : List Handle
deriving DecidableEq, Repr

/-- The handles dialed by this bastion and not yet closed. -/
def BastionRt.liveHandles (rt : BastionRt) : List Handle :=
  (List.range rt.nHandles).filter (fun h => !rt.closed.contains h)

/-! ## NewBastion -/

/-- What the environment answers to `NewBastion`: the dial of the agent socket
`SSH_AUTH_SOCK`, `ioutil.ReadFile` and `ssh.ParsePrivateKey`. -/
structure NewBastionEnv where
  agentDial : Option GoError
  readFile : String → Except GoError Nat
  parsePrivateKey : Nat → Except GoError Nat

/-- Go `NewBastion(addr, user, keyFile, retries)`. -/
def NewBastion (env : NewBastionEnv) (addr user keyFile : String) (retries : Int) :
    Except GoError bastion :=
  match env.agentDial with
  | some err => .error err
  | none =>
    let authMethods := [AuthMethod.agentSigners]
    let mk (auth : List AuthMethod) : bastion :=
      { config := { User := user, Auth := auth }, addr := addr, client := none,
        closeTimer := Timer.NewTimer 0, retries := retries, Active := false }
    if keyFile ≠ "" then
      match env.readFile keyFile with
      | .error err => .error (.wrap ("open ssh key " ++ keyFile ++ " failed: ") err)
      | .ok key =>
        match env.parsePrivateKey key with
        | .error err => .error (.wrap "parse ssh key failed: " err)
        | .ok signer => .ok (mk (authMethods ++ [AuthMethod.publicKeys signer]))
    else .ok (mk authMethods)

/-- The run-time state of a bastion just returned by `NewBastion`. -/
def BastionRt.fresh (b : bastion) : BastionRt :=
  { s := b, watchers := [], nHandles := 0, closed := [] }

/-! ## ForwardTo -/

/-- What the network answers during one `ForwardTo` call: `sshDial n` is the
outcome of the `n`-th `ssh.Dial` of the call (`none`: a client is returned),
`clientDial n` the outcome of its `n`-th `client.Dial`. -/
structure Env where
  sshDial : Nat → Option GoError
  clientDial : Nat → Except GoError Stream

/-- The network operations a `ForwardTo` call performs, in order. -/
inductive Event where
  | sshDial (addr : String) (result : Except GoError Handle)
  | clientDial (client : Handle) (addr : String) (result : Except GoError Stream)
deriving DecidableEq, Repr

/-- Whether the event is an `ssh.Dial`. -/
def Event.isSshDial : Event → Bool
  | .sshDial _ _ => true
  | .clientDial _ _ _ => false

/-- Whether the event is a `client.Dial`. -/
def Event.isClientDial : Event → Bool
  | .sshDial _ _ => false
  | .clientDial _ _ _ => true

/-- Number of tunnel dials (`ssh.Dial`) in a trace. -/
def sshDials (tr : List Event) : Nat := (tr.filter Event.isSshDial).length

/-- Number of destination dials (`client.Dial`) in a trace. -/
def clientDials (tr : List Event) : Nat := (tr.filter Event.isClientDial).length

/-- Number of tunnel dials made after the first destination-dial attempt. -/
def redials (tr : List Event) : Nat :=
  sshDials ((tr.dropWhile (fun e => !e.isClientDial)).drop 1)

/-- The variables of a running `ForwardTo`: the bastion, `redialSSH`, the
named result `err`, and how many dials the call has made so far. -/
structure LoopSt where
  rt : BastionRt
  redialSSH : Bool
  err : Option GoError
  nSsh : Nat
  nDial : Nat
deriving DecidableEq, Repr

/-- What a `ForwardTo` call leaves behind: the returned `(conn, err)`, the
bastion, and the network operations it made. -/
structure Outcome where
  conn : Option Stream
  err : Option GoError
  rt : BastionRt
  events : List Event
deriving DecidableEq, Repr

/-- One pass through the loop body either returns from `ForwardTo` or goes on
to the next iteration. -/
inductive Iter where
  | ret (o : Outcome)
  | cont (st : LoopSt) (events : List Event)

/-- Lines 101-111: `conn, err = client.Dial("tcp", addr)` over `client`, after
the events `pre` of this iteration. -/
def dialThrough (env : Env) (addr : String) (client : Handle) (st : LoopSt)
    (pre : List Event) : Iter :=
  match env.clientDial st.nDial with
  | .error e =>
    .cont { st with err := some e, redialSSH := true, nDial := st.nDial + 1 }
      (pre ++ [Event.clientDial client addr (.error e)])
  | .ok conn =>
    .ret { conn := some conn, err := none, rt := st.rt,
           events := pre ++ [Event.clientDial client addr (.ok conn)] }

/-- The loop body, lines 74-111. -/
def iteration (env : Env) (addr : String) (st : LoopSt) : Iter :=
  match st.rt.s.client, st.redialSSH with
  | some client, false => dialThrough env addr client st []
  | _, _ =>
    match env.sshDial st.nSsh with
    | some e =>
      .ret { conn := none, err := some e, rt := st.rt,
             events := [Event.sshDial st.rt.s.addr (.error e)] }
    | none =>
      let client : Handle := st.rt.nHandles
      let rt1 : BastionRt :=
        { s := { st.rt.s with client := some client, Active := true },
          watchers := st.rt.watchers ++ [client],
          nHandles := st.rt.nHandles + 1,
          closed := st.rt.closed }
      dialThrough env addr client { st with rt := rt1, err := none, nSsh := st.nSsh + 1 }
        [Event.sshDial st.rt.s.addr (.ok client)]

/-- The loop `for i := 0; i < s.retries; i++`, with `n` iterations left, and
the `return nil, err` after it. -/
def forwardLoop (env : Env) (addr : String) : Nat → LoopSt → Outcome
  | 0, st => { conn := none, err := st.err, rt := st.rt, events := [] }
  | n + 1, st =>
    match iteration env addr st with
    | .ret o => o
    | .cont st1 evs =>
      let o := forwardLoop env addr n st1
      { o with events := evs ++ o.events }

/-- Go `(s *bastion) ForwardTo(addr, sshIdleClose)`. -/
def ForwardTo (env : Env) (rt : BastionRt) (addr : String) (sshIdleClose : Nat) : Outcome :=
  let rt1 : BastionRt :=
    { rt with s := { rt.s with closeTimer := (rt.s.closeTimer.Stop).Reset sshIdleClose } }
  forwardLoop env addr rt.s.retries.toNat
    { rt := rt1, redialSSH := false, err := none, nSsh := 0, nDial := 0 }

/-- The idle watcher goroutine number `i` receives from `s.closeTimer.C`
(lines 87-90): it closes the client it captured and clears `Active`. -/
def timerFire (rt : BastionRt) (i : Nat) : BastionRt :=
  match rt.watchers.get? i with
  | none => rt
  | some client =>
    { s := { rt.s with Active := false, closeTimer := rt.s.closeTimer.Stop },
      watchers := rt.watchers.eraseIdx i,
      nHandles := rt.nHandles,
      closed := if rt.closed.contains client then rt.closed else client :: rt.closed }

/-- The states of one bastion reachable from the state `NewBastion` returned
by sequential `ForwardTo` calls and firings of the close timer. -/
inductive Reachable (b : bastion) : BastionRt → Prop where
  | init : Reachable b (BastionRt.fresh b)
  | forward {rt : BastionRt} (env : Env) (addr : String) (idle : Nat) :
      Reachable b rt → Reachable b (ForwardTo env rt addr idle).rt
  | fire {rt : BastionRt} (i : Nat) :
      Reachable b rt → rt.s.closeTimer.armed = true → i < rt.watchers.length →
      Reachable b (timerFire rt i)

/-! ## The SOCKS side: Rewrite and the Dial closure of main -/

/-- Go `net.JoinHostPort(host, port)`: a host with a colon in it is taken for a
literal IPv6 address and put in brackets. -/
def JoinHostPort (host port : String) : String :=
  if host.data.contains ':' then "[" ++ host ++ "]:" ++ port else host ++ ":" ++ port

/-- The authentication payload of a SOCKS request, a `map[string]string`. -/
abbrev Payload := List (String × String)

/-- The bastion host and port that `Rewrite` puts in the context. -/
structure Ctx where
  BastionHost : String
  BastionPort : String
deriving DecidableEq, Repr

/-- Go `socksServer.Rewrite`: the context values taken from the username and
password of the request (a missing map entry reads as the empty string). -/
def Rewrite (payload : Payload) : Ctx :=
  { BastionHost := (payload.lookup "Username").getD "",
    BastionPort := (payload.lookup "Password").getD "" }

/-- The key under which the Dial closure looks a bastion up (line 99). -/
def lookupKey (ctx : Ctx) : String := ctx.BastionHost ++ ":" ++ ctx.BastionPort

/-- The fields of `opts` the Dial closure reads. -/
structure Opts where
  SshUser : String
  SshKeyFile : String
  IdleClose : Nat
  Retries : Int
deriving DecidableEq, Repr

/-- Go `m[k] = v` on a map kept as an association list. -/
def mapAssign (m : List (String × Ptr)) (k : String) (v : Ptr) : List (String × Ptr) :=
  (k, v) :: m.filter (fun kv => kv.1 != k)

/-- The state the Dial closure works on: the `bastions` map and the bastion
objects it points to (`nextPtr` is the next address to be allocated). -/
structure World where
  bastions : List (String × Ptr)
  heap : Ptr → BastionRt
  nextPtr : Ptr

/-- One call of the Dial closure: its context and destination address, and
what the environment answers during the call. -/
structure Call where
  ctx : Ctx
  addr : String
  nbEnv : NewBastionEnv
  env : Env

/-- What a call of the Dial closure does to the registry and to bastions. -/
inductive DialEvent where
  | NewBastion (addr : String) (result : Except GoError Ptr)
  | mapStore (key : String) (p : Ptr)
  | ForwardTo (p : Ptr) (addr : String)
deriving DecidableEq, Repr

/-- What a call of the Dial closure leaves behind: the returned `(conn, err)`,
the world, what it did, and the network operations of its `ForwardTo`. -/
structure DialOut where
  conn : Option Stream
  err : Option GoError
  world : World
  events : List DialEvent
  fwd : List Event

/-- Lines 117-122: `return s.ForwardTo(addr, opts.IdleClose)` on the bastion
at `p`, after the events `pre` of this call. -/
def forwardVia (opts : Opts) (w : World) (c : Call) (p : Ptr) (pre : List DialEvent) :
    DialOut :=
  let o := ForwardTo c.env (w.heap p) c.addr opts.IdleClose
  { conn := o.conn, err := o.err,
    world := { w with heap := Function.update w.heap p o.rt },
    events := pre ++ [DialEvent.ForwardTo p c.addr],
    fwd := o.events }

/-- The `Dial` closure of `main` (lines 91-123). -/
def Dial (opts : Opts) (w : World) (c : Call) : DialOut :=
  let key := lookupKey c.ctx
  match w.bastions.lookup key with
  | some p => forwardVia opts w c p []
  | none =>
    let addr := JoinHostPort c.ctx.BastionHost c.ctx.BastionPort
    match NewBastion c.nbEnv addr opts.SshUser opts.SshKeyFile opts.Retries with
    | .error e =>
      { conn := none, err := some e, world := w,
        events := [DialEvent.NewBastion addr (.error e)], fwd := [] }
    | .ok b =>
      let p := w.nextPtr
      let w1 : World :=
        { bastions := mapAssign w.bastions key p,
          heap := Function.update w.heap p (BastionRt.fresh b),
          nextPtr := w.nextPtr + 1 }
      forwardVia opts w1 c p [DialEvent.NewBastion addr (.ok p), DialEvent.mapStore key p]

/-- The world after a sequence of calls of the Dial closure. -/
def runCalls (opts : Opts) (w : World) : List Call → World
  | [] => w
  | c :: cs => runCalls opts (Dial opts w c).world cs

/-- What each call of a sequence did, in order. -/
def runEvents (opts : Opts) (w : World) : List Call → List DialEvent
  | [] => []
  | c :: cs => (Dial opts w c).events ++ runEvents opts (Dial opts w c).world cs

/-- The world of `main` before the first request: `make(bastionHosts)`. -/
def World.init : World :=
  { bastions := [],
    heap := fun _ => BastionRt.fresh
      { config := { User := "", Auth := [] }, addr := "", client := none,
        closeTimer := Timer.NewTimer 0, retries := 0, Active := false },
    nextPtr := 0 }

/-- Whether the event stores a bastion under `key`. -/
def DialEvent.storesKey (key : String) : DialEvent → Bool
  | .mapStore k _ => k == key
  | _ => false

/-! ## Concrete inputs -/

/-- A network on which every tunnel dial succeeds and every destination dial
fails. -/
def envDestDown : Env :=
  { sshDial := fun _ => none, clientDial := fun n => .error (.ext n) }

/-- A network on which every tunnel dial succeeds, the first destination dial
fails and the later ones succeed. -/
def envFlaky : Env :=
  { sshDial := fun _ => none,
    clientDial := fun n => if n = 0 then .error (.ext 0) else .ok (100 + n) }

/-- A network on which everything succeeds. -/
def envUp : Env :=
  { sshDial := fun _ => none, clientDial := fun n => .ok (100 + n) }

/-- An environment in which `NewBastion` succeeds. -/
def nbOk : NewBastionEnv :=
  { agentDial := none, readFile := fun _ => .ok 0, parsePrivateKey := fun _ => .ok 0 }

/-- An environment in which the agent socket cannot be reached. -/
def nbNoAgent : NewBastionEnv :=
  { agentDial := some (.ext 7), readFile := fun _ => .ok 0, parsePrivateKey := fun _ => .ok 0 }

/-- The bastion `NewBastion` returns for `bastion1:22` with retry count `r`. -/
def bastion1 (r : Int) : bastion :=
  { config := { User := "ops", Auth := [AuthMethod.agentSigners] }, addr := "bastion1:22",
    client := none, closeTimer := Timer.NewTimer 0, retries := r, Active := false }

/-- A network on which the tunnel cannot be dialed. -/
def envTunnelDown : Env :=
  { sshDial := fun _ => some (.ext 9), clientDial := fun n => .ok (100 + n) }

/-- The destination used in the scenarios. -/
def dest : String := "10.0.0.5:443"

/-- The bastion for `bastion1:22` (2 retries) after one `ForwardTo` that
succeeded at once: handle 0 is stored and live. -/
def rtStored : BastionRt := (ForwardTo envUp (BastionRt.fresh (bastion1 2)) dest 100).rt

/-- The state `rtStored` after the idle watcher of handle 0 has fired. -/
def rtIdle : BastionRt := timerFire rtStored 0

/-- The bastion for `bastion1:22` (2 retries) after one `ForwardTo` whose first
destination dial failed and whose second, after a redial, succeeded. -/
def rtRedialed : BastionRt := (ForwardTo envFlaky (BastionRt.fresh (bastion1 2)) dest 100).rt

/-- The state `rtRedialed` after the close timer has fired and the watcher of
the superseded handle 0 has received the firing. -/
def rtStale : BastionRt := timerFire rtRedialed 0

/-- The loop variables at the start of a `ForwardTo` on a fresh bastion. -/
def stStart : LoopSt :=
  { rt := BastionRt.fresh (bastion1 2), redialSSH := false, err := none, nSsh := 0, nDial := 0 }


/-- A request routed to `bastion1:22`, on a network where everything works. -/
def callBastion1 : Call :=
  { ctx := Rewrite [("Username", "bastion1"), ("Password", "22")], addr := dest,
    nbEnv := nbOk, env := envUp }

/-- A request routed to `bastion1:22` while the agent socket is unreachable. -/
def callNoAgent : Call :=
  { ctx := Rewrite [("Username", "bastion1"), ("Password", "22")], addr := dest,
    nbEnv := nbNoAgent, env := envUp }

/-- A request whose credentials name the relay `2001:db8::1`, port `22`. -/
def callV6 : Call :=
  { ctx := Rewrite [("Username", "2001:db8::1"), ("Password", "22")], addr := dest,
    nbEnv := nbOk, env := envTunnelDown }

/-- A request whose credentials are the host `2001:db8:` and the port `1:22`. -/
def callOdd : Call :=
  { ctx := Rewrite [("Username", "2001:db8:"), ("Password", "1:22")], addr := dest,
    nbEnv := nbOk, env := envTunnelDown }


/-- The default options of `main` apart from the user: no key file, idle close
after 4h (in nanoseconds), 2 retries. -/
def optsDefault : Opts :=
  { SshUser := "ops", SshKeyFile := "", IdleClose := 14400000000000, Retries := 2 }


/-! ## The loop body, case by case -/

theorem iteration_reuse (env : Env) (addr : String) (st : LoopSt) (c : Handle)
    (hc : st.rt.s.client = some c) (hr : st.redialSSH = false) :
    iteration env addr st = dialThrough env addr c st [] := by
  unfold iteration
  rw [hc, hr]

theorem iteration_dial_fail (env : Env) (addr : String) (st : LoopSt) (e : GoError)
    (hd : st.rt.s.client = none ∨ st.redialSSH = true) (he : env.sshDial st.nSsh = some e) :
    iteration env addr st =
      .ret { conn := none, err := some e, rt := st.rt,
             events := [Event.sshDial st.rt.s.addr (.error e)] } := by
  unfold iteration
  rcases hd with h | h
  · rw [h]; simp [he]
  · rw [h]; cases st.rt.s.client <;> simp [he]

theorem iteration_dial_ok (env : Env) (addr : String) (st : LoopSt)
    (hd : st.rt.s.client = none ∨ st.redialSSH = true) (he : env.sshDial st.nSsh = none) :
    iteration env addr st =
      dialThrough env addr st.rt.nHandles
        { st with
          rt := { s := { st.rt.s with client := some st.rt.nHandles, Active := true },
                  watchers := st.rt.watchers ++ [st.rt.nHandles],
                  nHandles := st.rt.nHandles + 1,
                  closed := st.rt.closed },
          err := none, nSsh := st.nSsh + 1 }
        [Event.sshDial st.rt.s.addr (.ok st.rt.nHandles)] := by
  unfold iteration
  rcases hd with h | h
  · rw [h]; simp [he]
  · rw [h]; cases st.rt.s.client <;> simp [he]

theorem needs_dial_or_reuse (st : LoopSt) :
    (st.rt.s.client = none ∨ st.redialSSH = true) ∨
      (∃ c, st.rt.s.client = some c ∧ st.redialSSH = false) := by
  cases hc : st.rt.s.client with
  | none => exact Or.inl (Or.inl rfl)
  | some c =>
    cases hr : st.redialSSH with
    | true => exact Or.inl (Or.inr rfl)
    | false => exact Or.inr ⟨c, rfl, rfl⟩

@[simp] theorem sshDials_nil : sshDials [] = 0 := rfl

@[simp] theorem clientDials_nil : clientDials [] = 0 := rfl

@[simp] theorem sshDials_append (a b : List Event) :
    sshDials (a ++ b) = sshDials a + sshDials b := by
  simp [sshDials]

@[simp] theorem clientDials_append (a b : List Event) :
    clientDials (a ++ b) = clientDials a + clientDials b := by
  simp [clientDials]

@[simp] theorem sshDials_cons_ssh (a : String) (r : Except GoError Handle) (l : List Event) :
    sshDials (Event.sshDial a r :: l) = sshDials l + 1 := by
  simp [sshDials, Event.isSshDial]

@[simp] theorem sshDials_cons_client (c : Handle) (a : String) (r : Except GoError Stream)
    (l : List Event) : sshDials (Event.clientDial c a r :: l) = sshDials l := by
  simp [sshDials, Event.isSshDial]

@[simp] theorem clientDials_cons_ssh (a : String) (r : Except GoError Handle) (l : List Event) :
    clientDials (Event.sshDial a r :: l) = clientDials l := by
  simp [clientDials, Event.isClientDial]

@[simp] theorem clientDials_cons_client (c : Handle) (a : String) (r : Except GoError Stream)
    (l : List Event) : clientDials (Event.clientDial c a r :: l) = clientDials l + 1 := by
  simp [clientDials, Event.isClientDial]

/-! ## Tunnel-dial failure -/

/-- In a loop entered at any point, a failed tunnel dial in the trace is the
last operation of the call and its error is the one returned. -/
theorem forwardLoop_sshDial_error (env : Env) (addr : String) (a : String) (e : GoError) :
    ∀ (n : Nat) (st : LoopSt),
      Event.sshDial a (.error e) ∈ (forwardLoop env addr n st).events →
      (forwardLoop env addr n st).conn = none ∧ (forwardLoop env addr n st).err = some e ∧
      (forwardLoop env addr n st).events.getLast? = some (Event.sshDial a (.error e)) := by
  intro n
  induction n with
  | zero => intro st h; simp [forwardLoop] at h
  | succ n ih =>
    intro st h
    rcases needs_dial_or_reuse st with hd | ⟨c, hc, hr⟩
    · cases he : env.sshDial st.nSsh with
      | some e1 =>
        simp only [forwardLoop, iteration_dial_fail env addr st e1 hd he] at h ⊢
        simp at h
        obtain ⟨h1, h2⟩ := h
        subst h2
        simp [h1]
      | none =>
        simp only [forwardLoop, iteration_dial_ok env addr st hd he, dialThrough] at h ⊢
        cases hcd : env.clientDial st.nDial with
        | ok s => simp [hcd] at h
        | error e1 =>
          simp only [hcd] at h ⊢
          simp at h
          have := ih _ h
          refine ⟨this.1, this.2.1, ?_⟩
          rw [List.getLast?_append, this.2.2]
          simp
    · simp only [forwardLoop, iteration_reuse env addr st c hc hr, dialThrough] at h ⊢
      cases hcd : env.clientDial st.nDial with
      | ok s => simp [hcd] at h
      | error e1 =>
        simp only [hcd] at h ⊢
        simp at h
        have := ih _ h
        refine ⟨this.1, this.2.1, ?_⟩
        rw [List.getLast?_append, this.2.2]
        simp

/-- C5. A tunnel dial that fails with `e` ends the call at once. Wherever the
loop stands (any bastion state, any value of `redialSSH`, any `n + 1`
iterations left): when the iteration dials the tunnel and the dial fails with
`e`, the call returns a nil stream and `e`, that dial is the only operation
still made, and the bastion (stored handle, `Active`, watchers) is as it was
before the dial. For a whole `ForwardTo` call: a failed tunnel dial in its
trace is its last operation, and its error is the one returned. -/
theorem ForwardTo_tunnel_dial_failure_is_terminal (env : Env) (addr : String) (e : GoError)
    (n : Nat) (st : LoopSt)
    (hd : st.rt.s.client = none ∨ st.redialSSH = true)
    (he : env.sshDial st.nSsh = some e) :
    (forwardLoop env addr (n + 1) st).conn = none ∧
    (forwardLoop env addr (n + 1) st).err = some e ∧
    (forwardLoop env addr (n + 1) st).events = [Event.sshDial st.rt.s.addr (.error e)] ∧
    (forwardLoop env addr (n + 1) st).rt = st.rt ∧
    (forwardLoop env addr (n + 1) st).rt.s.client = st.rt.s.client ∧
    (forwardLoop env addr (n + 1) st).rt.s.Active = st.rt.s.Active ∧
    (∀ (rt : BastionRt) (idle : Nat) (a : String) (e1 : GoError),
      Event.sshDial a (.error e1) ∈ (ForwardTo env rt addr idle).events →
      (ForwardTo env rt addr idle).conn = none ∧ (ForwardTo env rt addr idle).err = some e1 ∧
      (ForwardTo env rt addr idle).events.getLast? = some (Event.sshDial a (.error e1))) := by
  simp only [forwardLoop, iteration_dial_fail env addr st e hd he]
  refine ⟨trivial, trivial, trivial, trivial, trivial, trivial, ?_⟩
  intro rt idle a e1 h
  exact forwardLoop_sshDial_error env addr a e1 _ _ h


/-! ## The retry loop when destination dials fail -/

/-- With every tunnel dial succeeding and every destination dial failing, a
loop that starts with a tunnel dial makes one dial pair per iteration. -/
theorem forwardLoop_all_fail (env : Env) (addr : String)
    (hssh : ∀ j, env.sshDial j = none) (hcd : ∀ j, ∃ e, env.clientDial j = .error e) :
    ∀ (n : Nat) (st : LoopSt), (st.rt.s.client = none ∨ st.redialSSH = true) →
      sshDials (forwardLoop env addr n st).events = n ∧
      clientDials (forwardLoop env addr n st).events = n ∧
      (forwardLoop env addr n st).conn = none ∧
      (∀ e, 0 < n → env.clientDial (st.nDial + n - 1) = .error e →
        (forwardLoop env addr n st).err = some e) := by
  intro n
  induction n with
  | zero => intro st _; simp [forwardLoop]
  | succ n ih =>
    intro st hd
    obtain ⟨e0, he0⟩ := hcd st.nDial
    simp only [forwardLoop, iteration_dial_ok env addr st hd (hssh _), dialThrough, he0]
    have := ih { rt := { s := { st.rt.s with client := some st.rt.nHandles, Active := true },
                         watchers := st.rt.watchers ++ [st.rt.nHandles],
                         nHandles := st.rt.nHandles + 1,
                         closed := st.rt.closed },
                 redialSSH := true, err := some e0, nSsh := st.nSsh + 1,
                 nDial := st.nDial + 1 } (Or.inr rfl)
    obtain ⟨h1, h2, h3, h4⟩ := this
    refine ⟨?_, ?_, h3, ?_⟩
    · simp [h1]
    · simp [h2]
    · intro e _ he
      rcases Nat.eq_zero_or_pos n with hn | hn
      · subst hn
        simp at he
        rw [he0] at he
        simp [forwardLoop]
        exact Except.error.inj he
      · apply h4 e hn
        have : st.nDial + 1 + n - 1 = st.nDial + (n + 1) - 1 := by omega
        simp only [this]
        exact he

/-- Destination dials that fail `m` times and then succeed: a loop that starts
with a tunnel dial and has more than `m` iterations left returns the stream of
attempt `m + 1`, after `m + 1` dial pairs. -/
theorem forwardLoop_fail_then_ok (env : Env) (addr : String) (s : Stream)
    (hssh : ∀ j, env.sshDial j = none) :
    ∀ (m n : Nat) (st : LoopSt), (st.rt.s.client = none ∨ st.redialSSH = true) → m < n →
      (∀ j, j < m → ∃ e, env.clientDial (st.nDial + j) = .error e) →
      env.clientDial (st.nDial + m) = .ok s →
      (forwardLoop env addr n st).conn = some s ∧
      (forwardLoop env addr n st).err = none ∧
      sshDials (forwardLoop env addr n st).events = m + 1 ∧
      clientDials (forwardLoop env addr n st).events = m + 1 ∧
      ∃ h, (forwardLoop env addr n st).events.getLast? =
        some (Event.clientDial h addr (.ok s)) := by
  intro m
  induction m with
  | zero =>
    intro n st hd hn _ hok
    obtain ⟨n, rfl⟩ : ∃ k, n = k + 1 := ⟨n - 1, by omega⟩
    simp only [Nat.add_zero] at hok
    simp only [forwardLoop, iteration_dial_ok env addr st hd (hssh _), dialThrough, hok]
    simp
  | succ m ih =>
    intro n st hd hn hfail hok
    obtain ⟨n, rfl⟩ : ∃ k, n = k + 1 := ⟨n - 1, by omega⟩
    obtain ⟨e0, he0⟩ := hfail 0 (by omega)
    simp only [Nat.add_zero] at he0
    simp only [forwardLoop, iteration_dial_ok env addr st hd (hssh _), dialThrough, he0]
    have := ih n { rt := { s := { st.rt.s with client := some st.rt.nHandles, Active := true },
                           watchers := st.rt.watchers ++ [st.rt.nHandles],
                           nHandles := st.rt.nHandles + 1,
                           closed := st.rt.closed },
                   redialSSH := true, err := some e0, nSsh := st.nSsh + 1,
                   nDial := st.nDial + 1 } (Or.inr rfl) (by omega)
      (by
        intro j hj
        have := hfail (j + 1) (by omega)
        simpa [Nat.add_assoc, Nat.add_comm 1 j] using this)
      (by simpa [Nat.add_assoc, Nat.add_comm 1 m] using hok)
    obtain ⟨h1, h2, h3, h4, h, h5⟩ := this
    refine ⟨h1, h2, ?_, ?_, h, ?_⟩
    · simp [h3]
    · simp [h4]
    · rw [List.getLast?_append, h5]
      simp

/-- Whatever the network does, a loop that has at least one iteration left, or
already holds an error, returns either a stream and no error or no stream and
an error. -/
theorem forwardLoop_conn_xor_err (env : Env) (addr : String) :
    ∀ (n : Nat) (st : LoopSt), (n = 0 → st.err.isSome = true) →
      ((forwardLoop env addr n st).conn.isSome = true ∧ (forwardLoop env addr n st).err = none) ∨
      ((forwardLoop env addr n st).conn = none ∧ (forwardLoop env addr n st).err.isSome = true) := by
  intro n
  induction n with
  | zero => intro st h; simp [forwardLoop, h]
  | succ n ih =>
    intro st _
    rcases needs_dial_or_reuse st with hd | ⟨c, hc, hr⟩
    · cases he : env.sshDial st.nSsh with
      | some e1 => simp [forwardLoop, iteration_dial_fail env addr st e1 hd he]
      | none =>
        simp only [forwardLoop, iteration_dial_ok env addr st hd he, dialThrough]
        cases hcd : env.clientDial st.nDial with
        | ok s => simp
        | error e1 => exact ih _ (fun _ => rfl)
    · simp only [forwardLoop, iteration_reuse env addr st c hc hr, dialThrough]
      cases hcd : env.clientDial st.nDial with
      | ok s => simp
      | error e1 => exact ih _ (fun _ => rfl)

/-- With a retry count of at least 1, `ForwardTo` returns either a stream and
no error, or no stream and an error. -/
theorem ForwardTo_conn_xor_err_of_pos (env : Env) (rt : BastionRt) (addr : String) (idle : Nat)
    (hR : 1 ≤ rt.s.retries) :
    ((ForwardTo env rt addr idle).conn.isSome = true ∧ (ForwardTo env rt addr idle).err = none) ∨
    ((ForwardTo env rt addr idle).conn = none ∧ (ForwardTo env rt addr idle).err.isSome = true) := by
  unfold ForwardTo
  apply forwardLoop_conn_xor_err
  intro h
  omega

/-- In a loop that starts with a tunnel dial, every destination dial goes over
a handle dialed in this loop. -/
theorem forwardLoop_fresh_handles (env : Env) (addr : String) :
    ∀ (n : Nat) (st : LoopSt), (st.rt.s.client = none ∨ st.redialSSH = true) →
      ∀ c a x, Event.clientDial c a x ∈ (forwardLoop env addr n st).events →
        st.rt.nHandles ≤ c := by
  intro n
  induction n with
  | zero => intro st _ c a x h; simp [forwardLoop] at h
  | succ n ih =>
    intro st hd c a x h
    cases he : env.sshDial st.nSsh with
    | some e1 => simp [forwardLoop, iteration_dial_fail env addr st e1 hd he] at h
    | none =>
      simp only [forwardLoop, iteration_dial_ok env addr st hd he, dialThrough] at h
      cases hcd : env.clientDial st.nDial with
      | ok s =>
        simp [hcd] at h
        exact Nat.le_of_eq h.1.symm
      | error e1 =>
        simp only [hcd] at h
        simp at h
        rcases h with h | h
        · exact Nat.le_of_eq h.1.symm
        · have := ih _ (Or.inr rfl) c a x h
          simp at this
          omega


/-! ## ForwardTo: the claims on the retry loop -/

theorem redials_nil_pre (c : Handle) (a : String) (r : Except GoError Stream)
    (rest : List Event) : redials (Event.clientDial c a r :: rest) = sshDials rest := by
  simp [redials, List.dropWhile, Event.isClientDial]

theorem redials_ssh_pre (b : String) (x : Except GoError Handle) (c : Handle) (a : String)
    (r : Except GoError Stream) (rest : List Event) :
    redials (Event.sshDial b x :: Event.clientDial c a r :: rest) = sshDials rest := by
  simp [redials, List.dropWhile, Event.isClientDial]

/-- C3. Retry budget `R >= 1`, `1 <= k <= R`, every tunnel dial succeeds, the
first `k - 1` destination dials fail and the `k`-th succeeds with stream `s`:
`ForwardTo` returns `s` with a nil error, makes exactly `k` destination dials,
the successful one being the last operation of the call, and makes exactly
`k - 1` tunnel dials after the first attempt. -/
theorem ForwardTo_succeeds_on_attempt_k (env : Env) (rt : BastionRt) (addr : String)
    (idle : Nat) (R k : Nat) (s : Stream)
    (hR : rt.s.retries = (R : Int)) (hk1 : 1 ≤ k) (hkR : k ≤ R)
    (hssh : ∀ j, env.sshDial j = none)
    (hfail : ∀ j, j < k - 1 → ∃ e, env.clientDial j = .error e)
    (hok : env.clientDial (k - 1) = .ok s) :
    (ForwardTo env rt addr idle).conn = some s ∧
    (ForwardTo env rt addr idle).err = none ∧
    clientDials (ForwardTo env rt addr idle).events = k ∧
    redials (ForwardTo env rt addr idle).events = k - 1 ∧
    ∃ h, (ForwardTo env rt addr idle).events.getLast? =
      some (Event.clientDial h addr (.ok s)) := by
  obtain ⟨n, rfl⟩ : ∃ n, R = n + 1 := ⟨R - 1, by omega⟩
  unfold ForwardTo
  rw [hR]
  simp only [Int.toNat_ofNat]
  generalize hst : ({ rt := { rt with s := { rt.s with closeTimer := (rt.s.closeTimer.Stop).Reset idle } },
                      redialSSH := false, err := none, nSsh := 0, nDial := 0 } : LoopSt) = st
  have hnd : st.nDial = 0 := by rw [← hst]
  have hns : st.redialSSH = false := by rw [← hst]
  rcases Nat.lt_or_ge 1 k with hk | hk
  · -- the first attempt fails, attempts 2..k follow a redial
    obtain ⟨m, rfl⟩ : ∃ m, k = m + 2 := ⟨k - 2, by omega⟩
    obtain ⟨e0, he0⟩ := hfail 0 (by omega)
    have hrest : ∀ st1 : LoopSt, st1.redialSSH = true → st1.nDial = 1 →
        (forwardLoop env addr n st1).conn = some s ∧
        (forwardLoop env addr n st1).err = none ∧
        sshDials (forwardLoop env addr n st1).events = m + 1 ∧
        clientDials (forwardLoop env addr n st1).events = m + 1 ∧
        ∃ h, (forwardLoop env addr n st1).events.getLast? =
          some (Event.clientDial h addr (.ok s)) := by
      intro st1 h1 h2
      apply forwardLoop_fail_then_ok env addr s hssh m n st1 (Or.inr h1) (by omega)
      · intro j hj
        rw [h2]
        have := hfail (j + 1) (by omega)
        simpa [Nat.add_comm 1 j] using this
      · rw [h2]
        simpa [Nat.add_comm 1 m] using hok
    rcases needs_dial_or_reuse st with hd | ⟨c, hc, hr⟩
    · simp only [forwardLoop, iteration_dial_ok env addr st hd (hssh _), dialThrough, hnd, he0]
      obtain ⟨h1, h2, h3, h4, h, h5⟩ := hrest
        { rt := { s := { st.rt.s with client := some st.rt.nHandles, Active := true },
                  watchers := st.rt.watchers ++ [st.rt.nHandles],
                  nHandles := st.rt.nHandles + 1,
                  closed := st.rt.closed },
          redialSSH := true, err := some e0, nSsh := st.nSsh + 1, nDial := 0 + 1 } rfl rfl
      refine ⟨h1, h2, ?_, ?_, h, ?_⟩
      · simp [h4]
      · simp only [List.cons_append, List.nil_append, redials_ssh_pre, h3]
        omega
      · rw [List.getLast?_append, h5]
        simp
    · simp only [forwardLoop, iteration_reuse env addr st c hc hr, dialThrough, hnd, he0]
      obtain ⟨h1, h2, h3, h4, h, h5⟩ := hrest
        { st with err := some e0, redialSSH := true, nDial := 0 + 1 } rfl rfl
      refine ⟨h1, h2, ?_, ?_, h, ?_⟩
      · simp [h4]
      · simp only [List.cons_append, List.nil_append, redials_nil_pre, h3]
        omega
      · rw [List.getLast?_append, h5]
        simp
  · -- the first attempt succeeds
    have hk : k = 1 := by omega
    subst hk
    simp only [Nat.sub_self] at hok
    rcases needs_dial_or_reuse st with hd | ⟨c, hc, hr⟩
    · simp only [forwardLoop, iteration_dial_ok env addr st hd (hssh _), dialThrough, hnd, hok]
      simp [redials_ssh_pre]
    · simp only [forwardLoop, iteration_reuse env addr st c hc hr, dialThrough, hnd, hok]
      simp [redials_nil_pre]

/-- C3, at retry budget 2 with the first destination dial failing and the
second succeeding: one redial, the second attempt returns its stream. -/
theorem ForwardTo_succeeds_on_attempt_k_witness :
    (ForwardTo envFlaky (BastionRt.fresh (bastion1 2)) dest 100).conn = some 101 ∧
    (ForwardTo envFlaky (BastionRt.fresh (bastion1 2)) dest 100).err = none ∧
    clientDials (ForwardTo envFlaky (BastionRt.fresh (bastion1 2)) dest 100).events = 2 ∧
    redials (ForwardTo envFlaky (BastionRt.fresh (bastion1 2)) dest 100).events = 2 - 1 ∧
    ∃ h, (ForwardTo envFlaky (BastionRt.fresh (bastion1 2)) dest 100).events.getLast? =
      some (Event.clientDial h dest (.ok 101)) :=
  ForwardTo_succeeds_on_attempt_k envFlaky (BastionRt.fresh (bastion1 2)) dest 100 2 2 101
    rfl (by decide) (by decide) (fun _ => rfl)
    (fun j hj => ⟨.ext 0, by
      have : j = 0 := by omega
      subst this
      rfl⟩)
    rfl


/-- C5, on a fresh bastion whose tunnel cannot be dialed: the first dial fails,
the call returns its error at once and the bastion is untouched. -/
theorem ForwardTo_tunnel_dial_failure_is_terminal_witness :
    (forwardLoop envTunnelDown dest (1 + 1) stStart).conn = none ∧
    (forwardLoop envTunnelDown dest (1 + 1) stStart).err = some (.ext 9) ∧
    (forwardLoop envTunnelDown dest (1 + 1) stStart).events =
      [Event.sshDial stStart.rt.s.addr (.error (.ext 9))] ∧
    (forwardLoop envTunnelDown dest (1 + 1) stStart).rt = stStart.rt :=
  have h := ForwardTo_tunnel_dial_failure_is_terminal envTunnelDown dest (.ext 9) 1 stStart
    (Or.inl rfl) rfl
  ⟨h.1, h.2.1, h.2.2.1, h.2.2.2.1⟩

/-- C4 as stated fails when a handle is already stored: with retry budget 2,
every tunnel dial succeeding and every destination dial failing, the call on
`rtStored` makes 2 destination dials but only 1 tunnel dial, the first attempt
going over the stored handle. -/
theorem ForwardTo_stored_handle_one_tunnel_dial_fewer :
    rtStored.s.client = some 0 ∧ rtStored.s.retries = 2 ∧
    (∀ j, envDestDown.sshDial j = none) ∧
    (∀ j, ∃ e, envDestDown.clientDial j = .error e) ∧
    clientDials (ForwardTo envDestDown rtStored dest 100).events = 2 ∧
    sshDials (ForwardTo envDestDown rtStored dest 100).events = 1 ∧
    ¬ (sshDials (ForwardTo envDestDown rtStored dest 100).events = 2) := by
  refine ⟨by decide, by decide, fun _ => rfl, fun j => ⟨.ext j, rfl⟩, by decide, by decide,
    by decide⟩

/-- C4, amended. Retry budget `R >= 1`, every tunnel dial succeeds, every
destination dial fails: `ForwardTo` makes exactly `R` destination dials, and
exactly `R` tunnel dials when no handle is stored at the start, exactly
`R - 1` when one is (the first attempt reuses it); it returns a nil stream and
the error of the `R`-th destination dial. -/
theorem ForwardTo_all_destination_dials_fail (env : Env) (rt : BastionRt) (addr : String)
    (idle : Nat) (R : Nat) (e : GoError)
    (hR : rt.s.retries = (R : Int)) (hpos : 1 ≤ R)
    (hssh : ∀ j, env.sshDial j = none)
    (hcd : ∀ j, ∃ e1, env.clientDial j = .error e1)
    (hlast : env.clientDial (R - 1) = .error e) :
    clientDials (ForwardTo env rt addr idle).events = R ∧
    sshDials (ForwardTo env rt addr idle).events = (if rt.s.client.isSome then R - 1 else R) ∧
    (ForwardTo env rt addr idle).conn = none ∧
    (ForwardTo env rt addr idle).err = some e := by
  obtain ⟨n, rfl⟩ : ∃ n, R = n + 1 := ⟨R - 1, by omega⟩
  unfold ForwardTo
  rw [hR]
  simp only [Int.toNat_ofNat]
  generalize hst : ({ rt := { rt with s := { rt.s with closeTimer := (rt.s.closeTimer.Stop).Reset idle } },
                      redialSSH := false, err := none, nSsh := 0, nDial := 0 } : LoopSt) = st
  have hnd : st.nDial = 0 := by rw [← hst]
  have hns : st.redialSSH = false := by rw [← hst]
  have hcl : st.rt.s.client = rt.s.client := by rw [← hst]
  rcases needs_dial_or_reuse st with hd | ⟨c, hc, hr⟩
  · have hnone : rt.s.client = none := by
      rcases hd with h | h
      · rw [← hcl]; exact h
      · rw [hns] at h; cases h
    obtain ⟨h1, h2, h3, h4⟩ := forwardLoop_all_fail env addr hssh hcd (n + 1) st hd
    refine ⟨h2, by simpa [hnone] using h1, h3, ?_⟩
    apply h4 e (by omega)
    rw [hnd]
    simpa using hlast
  · have hsome : rt.s.client = some c := by rw [← hcl]; exact hc
    obtain ⟨e0, he0⟩ := hcd 0
    rw [forwardLoop, iteration_reuse env addr st c hc hr]
    simp only [dialThrough, hnd, he0]
    obtain ⟨h1, h2, h3, h4⟩ := forwardLoop_all_fail env addr hssh hcd n
      { st with err := some e0, redialSSH := true, nDial := 0 + 1 } (Or.inr rfl)
    refine ⟨by simp [h2], by simp [h1, hsome], h3, ?_⟩
    rcases Nat.eq_zero_or_pos n with hn | hn
    · subst hn
      simp at hlast
      rw [he0] at hlast
      simp [forwardLoop]
      exact Except.error.inj hlast
    · apply h4 e hn
      have : 0 + 1 + n - 1 = n + 1 - 1 := by omega
      simp only [this]
      exact hlast

/-- C4 amended, at retry budget 2: on a fresh bastion 2 tunnel dials and 2
destination dials, and the error of the second destination dial. -/
theorem ForwardTo_all_destination_dials_fail_witness :
    clientDials (ForwardTo envDestDown (BastionRt.fresh (bastion1 2)) dest 100).events = 2 ∧
    sshDials (ForwardTo envDestDown (BastionRt.fresh (bastion1 2)) dest 100).events =
      (if (BastionRt.fresh (bastion1 2)).s.client.isSome then 2 - 1 else 2) ∧
    (ForwardTo envDestDown (BastionRt.fresh (bastion1 2)) dest 100).conn = none ∧
    (ForwardTo envDestDown (BastionRt.fresh (bastion1 2)) dest 100).err = some (.ext 1) :=
  ForwardTo_all_destination_dials_fail envDestDown (BastionRt.fresh (bastion1 2)) dest 100 2
    (.ext 1) rfl (by decide) (fun _ => rfl) (fun j => ⟨.ext j, rfl⟩) rfl

/-- C6 fails at a retry count of 0 (and below): the loop body never runs and
`ForwardTo` returns a nil stream together with a nil error, whatever the
network would have answered. -/
theorem ForwardTo_zero_retries_returns_nil_nil :
    (ForwardTo envUp (BastionRt.fresh (bastion1 0)) dest 100).conn = none ∧
    (ForwardTo envUp (BastionRt.fresh (bastion1 0)) dest 100).err = none ∧
    (ForwardTo envUp (BastionRt.fresh (bastion1 0)) dest 100).events = [] ∧
    (ForwardTo envUp (BastionRt.fresh (bastion1 (-1))) dest 100).conn = none ∧
    (ForwardTo envUp (BastionRt.fresh (bastion1 (-1))) dest 100).err = none := by
  decide


/-! ## ForwardTo after the idle watcher has fired -/

theorem timerFire_of_watcher (rt0 : BastionRt) (i : Nat) (h : Handle)
    (hw : rt0.watchers.get? i = some h) :
    (timerFire rt0 i).s.client = rt0.s.client ∧ h ∈ (timerFire rt0 i).closed ∧
    (timerFire rt0 i).s.Active = false ∧ (timerFire rt0 i).nHandles = rt0.nHandles ∧
    (timerFire rt0 i).s.retries = rt0.s.retries := by
  unfold timerFire
  rw [hw]
  refine ⟨rfl, ?_, rfl, rfl, rfl⟩
  by_cases hc : h ∈ rt0.closed <;> simp [hc]

/-- C7 as stated fails. After a first `ForwardTo` (handle 0 stored) the idle
watcher fires: handle 0 is closed, `Active` is false, and handle 0 is still
the stored one. The next `ForwardTo` (retry budget 2) starts with a
destination dial over the closed handle 0; the tunnel is dialed only after
that attempt has failed. -/
theorem ForwardTo_after_idle_close_dials_over_closed_handle :
    rtIdle.s.client = some 0 ∧ rtIdle.closed = [0] ∧ rtIdle.s.Active = false ∧
    rtIdle.s.retries = 2 ∧
    (ForwardTo envFlaky rtIdle dest 100).events =
      [Event.clientDial 0 dest (.error (.ext 0)),
       Event.sshDial "bastion1:22" (.ok 1),
       Event.clientDial 1 dest (.ok 101)] := by
  decide

/-- C7, amended. In a state where the idle watcher of the stored handle `h` has
fired (`h` closed and still stored, `Active` false), with retry budget
`R >= 2`: the next `ForwardTo` first attempts a destination dial over the
closed handle `h`; when that attempt fails, the second operation of the call
is a fresh tunnel dial, and every later destination dial of the call goes over
a handle dialed in this call, never over `h`. -/
theorem ForwardTo_after_idle_close (env : Env) (rt0 : BastionRt) (i : Nat) (h : Handle)
    (addr : String) (idle : Nat) (e : GoError)
    (hw : rt0.watchers.get? i = some h) (hc : rt0.s.client = some h)
    (hh : h < rt0.nHandles) (hR : 2 ≤ rt0.s.retries)
    (hfail : env.clientDial 0 = .error e) :
    (timerFire rt0 i).s.client = some h ∧ h ∈ (timerFire rt0 i).closed ∧
    (timerFire rt0 i).s.Active = false ∧
    ∃ r rest, (ForwardTo env (timerFire rt0 i) addr idle).events =
        Event.clientDial h addr (.error e) ::
          Event.sshDial (timerFire rt0 i).s.addr r :: rest ∧
      ∀ c a x, Event.clientDial c a x ∈ rest → (timerFire rt0 i).nHandles ≤ c ∧ c ≠ h := by
  obtain ⟨f1, f2, f3, f4, f5⟩ := timerFire_of_watcher rt0 i h hw
  refine ⟨f1.trans hc, f2, f3, ?_⟩
  generalize timerFire rt0 i = rt at f1 f4 f5 ⊢
  obtain ⟨n, hn⟩ : ∃ n, rt.s.retries.toNat = n + 2 := ⟨rt.s.retries.toNat - 2, by omega⟩
  unfold ForwardTo
  simp only [hn]
  generalize hst : ({ rt := { rt with s := { rt.s with closeTimer := (rt.s.closeTimer.Stop).Reset idle } },
                      redialSSH := false, err := none, nSsh := 0, nDial := 0 } : LoopSt) = st
  have hnd : st.nDial = 0 := by rw [← hst]
  have hrd : st.redialSSH = false := by rw [← hst]
  have hcl : st.rt.s.client = some h := by rw [← hst]; exact f1.trans hc
  have hnh : st.rt.nHandles = rt.nHandles := by rw [← hst]
  have had : st.rt.s.addr = rt.s.addr := by rw [← hst]
  have hlt : h < st.rt.nHandles := by rw [hnh, f4]; exact hh
  have key : ∀ c : Handle, st.rt.nHandles ≤ c → st.rt.nHandles ≤ c ∧ c ≠ h :=
    fun c hle => ⟨hle, Nat.ne_of_gt (Nat.lt_of_lt_of_le hlt hle)⟩
  rw [← hnh, ← had]
  clear hst
  rw [forwardLoop, iteration_reuse env addr st h hcl hrd]
  simp only [dialThrough, hnd, hfail]
  generalize hst1 : ({ st with err := some e, redialSSH := true, nDial := 0 + 1 } : LoopSt) = st1
  have h1r : st1.redialSSH = true := by rw [← hst1]
  have h1n : st1.rt.nHandles = st.rt.nHandles := by rw [← hst1]
  have h1a : st1.rt.s.addr = st.rt.s.addr := by rw [← hst1]
  cases he : env.sshDial st1.nSsh with
  | some e1 =>
    rw [forwardLoop, iteration_dial_fail env addr st1 e1 (Or.inr h1r) he]
    refine ⟨.error e1, [], ?_, ?_⟩
    · simp [h1a]
    · intro c a x hmem
      cases hmem
  | none =>
    rw [forwardLoop, iteration_dial_ok env addr st1 (Or.inr h1r) he]
    cases hcd : env.clientDial st1.nDial with
    | ok s =>
      simp only [dialThrough, hcd]
      refine ⟨.ok st1.rt.nHandles, [Event.clientDial st1.rt.nHandles addr (.ok s)], ?_, ?_⟩
      · simp [h1a]
      · intro c a x hmem
        simp at hmem
        exact key c (by rw [hmem.1, h1n])
    | error e2 =>
      simp only [dialThrough, hcd]
      generalize hst2 : ({ rt := { s := { st1.rt.s with client := some st1.rt.nHandles, Active := true },
                                   watchers := st1.rt.watchers ++ [st1.rt.nHandles],
                                   nHandles := st1.rt.nHandles + 1,
                                   closed := st1.rt.closed },
                           redialSSH := true, err := some e2, nSsh := st1.nSsh + 1,
                           nDial := st1.nDial + 1 } : LoopSt) = st2
      have h2r : st2.redialSSH = true := by rw [← hst2]
      have h2n : st2.rt.nHandles = st1.rt.nHandles + 1 := by rw [← hst2]
      refine ⟨.ok st1.rt.nHandles,
        Event.clientDial st1.rt.nHandles addr (.error e2) :: (forwardLoop env addr n st2).events,
        ?_, ?_⟩
      · simp [h1a]
      · intro c a x hmem
        simp only [List.mem_cons] at hmem
        rcases hmem with hmem | hmem
        · simp at hmem
          exact key c (by rw [hmem.1, h1n])
        · have := forwardLoop_fresh_handles env addr n st2 (Or.inr h2r) c a x hmem
          rw [h2n, h1n] at this
          exact key c (Nat.le_of_succ_le this)

/-- C7 amended, at the state `rtIdle` (handle 0 closed by its watcher) with
retry budget 2 and a first destination dial that fails. -/
theorem ForwardTo_after_idle_close_witness :
    (timerFire rtStored 0).s.client = some 0 ∧ 0 ∈ (timerFire rtStored 0).closed ∧
    (timerFire rtStored 0).s.Active = false ∧
    ∃ r rest, (ForwardTo envFlaky (timerFire rtStored 0) dest 100).events =
        Event.clientDial 0 dest (.error (.ext 0)) ::
          Event.sshDial (timerFire rtStored 0).s.addr r :: rest ∧
      ∀ c a x, Event.clientDial c a x ∈ rest → (timerFire rtStored 0).nHandles ≤ c ∧ c ≠ 0 :=
  ForwardTo_after_idle_close envFlaky rtStored 0 0 dest 100 (.ext 0)
    (by decide) (by decide) (by decide) (by decide) rfl

/-! ## Handles and watchers of one bastion over several calls -/

/-- C8 fails after a redial. One `ForwardTo` on a fresh bastion (retry budget
2) whose first destination dial fails: the replacement handle 1 is dialed and
stored while handle 0 has not been closed, so two handles are live. -/
theorem ForwardTo_redial_leaves_previous_handle_live :
    Reachable (bastion1 2) rtRedialed ∧
    rtRedialed.s.client = some 1 ∧ rtRedialed.closed = [] ∧
    rtRedialed.liveHandles = [0, 1] ∧ ¬ (rtRedialed.liveHandles.length ≤ 1) :=
  ⟨Reachable.forward envFlaky dest 100 Reachable.init, by decide, by decide, by decide,
    by decide⟩

/-- C10 fails when a superseded watcher receives the timer. After the redial
of `rtRedialed` the watchers of handles 0 and 1 both wait on the close timer;
when the firing goes to the watcher of the superseded handle 0, `Active`
becomes false although the stored handle 1 has not been closed. -/
theorem timerFire_stale_watcher_clears_Active :
    rtRedialed.watchers = [0, 1] ∧ rtRedialed.s.client = some 1 ∧
    rtRedialed.s.Active = true ∧
    Reachable (bastion1 2) rtStale ∧
    rtStale.s.client = some 1 ∧ rtStale.closed = [0] ∧ rtStale.s.Active = false ∧
    ¬ (rtStale.s.Active = true ↔
        ∃ h, rtStale.s.client = some h ∧ h ∉ rtStale.closed) := by
  refine ⟨by decide, by decide, by decide, ?_, by decide, by decide, by decide, ?_⟩
  · exact Reachable.fire 0 (Reachable.forward envFlaky dest 100 Reachable.init)
      (by decide) (by decide)
  · intro hiff
    have : rtStale.s.Active = true := hiff.mpr ⟨1, by decide, by decide⟩
    revert this
    decide


/-! ## The registry of the Dial closure -/

theorem lookup_filter_ne (m : List (String × Ptr)) (k k1 : String) :
    (m.filter (fun kv => kv.1 != k)).lookup k1 = if k1 = k then none else m.lookup k1 := by
  induction m with
  | nil => simp
  | cons a m ih =>
    obtain ⟨ka, va⟩ := a
    by_cases h : ka = k
    · subst h
      by_cases h1 : k1 = ka
      · subst h1
        simpa [List.filter_cons] using ih
      · have : (k1 == ka) = false := by simpa using h1
        simp only [List.filter_cons, bne_self_eq_false, Bool.false_eq_true, if_false, ih,
          List.lookup_cons, this]
    · have hne : (ka != k) = true := by simpa using h
      simp only [List.filter_cons, hne, if_true, List.lookup_cons, ih]
      by_cases h1 : k1 = ka
      · subst h1
        simp [h]
      · have : (k1 == ka) = false := by simpa using h1
        simp [this]

theorem lookup_mapAssign (m : List (String × Ptr)) (k k1 : String) (v : Ptr) :
    (mapAssign m k v).lookup k1 = if k1 = k then some v else m.lookup k1 := by
  unfold mapAssign
  by_cases h : k1 = k
  · subst h
    simp [List.lookup_cons]
  · have : (k1 == k) = false := by simpa using h
    simp [List.lookup_cons, this, lookup_filter_ne, h]

theorem Dial_of_hit (opts : Opts) (w : World) (c : Call) (p : Ptr)
    (h : w.bastions.lookup (lookupKey c.ctx) = some p) :
    Dial opts w c = forwardVia opts w c p [] := by
  unfold Dial
  simp only [h]

theorem Dial_of_fail (opts : Opts) (w : World) (c : Call) (e : GoError)
    (h : w.bastions.lookup (lookupKey c.ctx) = none)
    (hnb : NewBastion c.nbEnv (JoinHostPort c.ctx.BastionHost c.ctx.BastionPort)
      opts.SshUser opts.SshKeyFile opts.Retries = .error e) :
    Dial opts w c =
      { conn := none, err := some e, world := w,
        events := [DialEvent.NewBastion
          (JoinHostPort c.ctx.BastionHost c.ctx.BastionPort) (.error e)],
        fwd := [] } := by
  unfold Dial
  simp only [h, hnb]

theorem Dial_of_new (opts : Opts) (w : World) (c : Call) (b : bastion)
    (h : w.bastions.lookup (lookupKey c.ctx) = none)
    (hnb : NewBastion c.nbEnv (JoinHostPort c.ctx.BastionHost c.ctx.BastionPort)
      opts.SshUser opts.SshKeyFile opts.Retries = .ok b) :
    Dial opts w c =
      forwardVia opts
        { bastions := mapAssign w.bastions (lookupKey c.ctx) w.nextPtr,
          heap := Function.update w.heap w.nextPtr (BastionRt.fresh b),
          nextPtr := w.nextPtr + 1 } c w.nextPtr
        [DialEvent.NewBastion (JoinHostPort c.ctx.BastionHost c.ctx.BastionPort)
           (.ok w.nextPtr),
         DialEvent.mapStore (lookupKey c.ctx) w.nextPtr] := by
  unfold Dial
  simp only [h, hnb]

/-- A call whose key is in the registry goes straight to `ForwardTo` on the
stored bastion and leaves the registry alone. -/
theorem Dial_hit (opts : Opts) (w : World) (c : Call) (p : Ptr)
    (h : w.bastions.lookup (lookupKey c.ctx) = some p) :
    (Dial opts w c).events = [DialEvent.ForwardTo p c.addr] ∧
    (Dial opts w c).world.bastions = w.bastions := by
  rw [Dial_of_hit opts w c p h]
  exact ⟨rfl, rfl⟩

/-- A call never removes or replaces an entry of the registry. -/
theorem Dial_bastions_mono (opts : Opts) (w : World) (c : Call) (k : String) (q : Ptr)
    (h : w.bastions.lookup k = some q) :
    (Dial opts w c).world.bastions.lookup k = some q := by
  cases hl : w.bastions.lookup (lookupKey c.ctx) with
  | some p =>
    rw [Dial_of_hit opts w c p hl]
    exact h
  | none =>
    cases hnb : NewBastion c.nbEnv (JoinHostPort c.ctx.BastionHost c.ctx.BastionPort)
        opts.SshUser opts.SshKeyFile opts.Retries with
    | error e =>
      rw [Dial_of_fail opts w c e hl hnb]
      exact h
    | ok b =>
      have hne : k ≠ lookupKey c.ctx := by
        intro heq
        rw [heq, hl] at h
        cases h
      rw [Dial_of_new opts w c b hl hnb]
      simp only [forwardVia, lookup_mapAssign, hne, if_false]
      exact h

theorem runCalls_bastions_mono (opts : Opts) (cs : List Call) :
    ∀ (w : World) (k : String) (q : Ptr), w.bastions.lookup k = some q →
      (runCalls opts w cs).bastions.lookup k = some q := by
  induction cs with
  | nil => intro w k q h; exact h
  | cons c cs ih =>
    intro w k q h
    exact ih _ k q (Dial_bastions_mono opts w c k q h)

/-- A call that stores a bastion does so under its own lookup key, which was
absent before, right after `NewBastion` returned that bastion; afterwards the
key maps to it. -/
theorem Dial_store (opts : Opts) (w : World) (c : Call) (k : String) (p : Ptr)
    (h : DialEvent.mapStore k p ∈ (Dial opts w c).events) :
    k = lookupKey c.ctx ∧ w.bastions.lookup k = none ∧
    (Dial opts w c).world.bastions.lookup k = some p ∧
    (Dial opts w c).events =
      [DialEvent.NewBastion (JoinHostPort c.ctx.BastionHost c.ctx.BastionPort) (.ok p),
       DialEvent.mapStore k p, DialEvent.ForwardTo p c.addr] := by
  cases hl : w.bastions.lookup (lookupKey c.ctx) with
  | some p1 =>
    rw [Dial_of_hit opts w c p1 hl] at h
    simp [forwardVia] at h
  | none =>
    cases hnb : NewBastion c.nbEnv (JoinHostPort c.ctx.BastionHost c.ctx.BastionPort)
        opts.SshUser opts.SshKeyFile opts.Retries with
    | error e =>
      rw [Dial_of_fail opts w c e hl hnb] at h
      simp at h
    | ok b =>
      rw [Dial_of_new opts w c b hl hnb] at h ⊢
      simp [forwardVia] at h
      obtain ⟨h1, h2⟩ := h
      subst h1 h2
      refine ⟨rfl, hl, ?_, ?_⟩
      · simp [forwardVia, lookup_mapAssign]
      · simp [forwardVia]

/-- Once a key is in the registry, no later call stores a bastion under it. -/
theorem runEvents_no_store_of_present (opts : Opts) (k : String) (cs : List Call) :
    ∀ (w : World) (q : Ptr), w.bastions.lookup k = some q →
      (runEvents opts w cs).filter (DialEvent.storesKey k) = [] := by
  induction cs with
  | nil => intro w q _; rfl
  | cons c cs ih =>
    intro w q h
    simp only [runEvents, List.filter_append]
    rw [ih _ q (Dial_bastions_mono opts w c k q h)]
    simp only [List.append_nil, List.filter_eq_nil_iff]
    intro ev hev hst
    cases ev with
    | NewBastion a r => simp [DialEvent.storesKey] at hst
    | ForwardTo p a => simp [DialEvent.storesKey] at hst
    | mapStore k1 p =>
      have hk : k1 = k := by simpa [DialEvent.storesKey] using hst
      subst hk
      have := (Dial_store opts w c k1 p hev).2.1
      rw [h] at this
      cases this

/-- Over any sequence of calls, at most one store happens under a given key. -/
theorem runEvents_store_le_one (opts : Opts) (k : String) (cs : List Call) :
    ∀ (w : World), ((runEvents opts w cs).filter (DialEvent.storesKey k)).length ≤ 1 := by
  induction cs with
  | nil => intro w; simp [runEvents]
  | cons c cs ih =>
    intro w
    simp only [runEvents, List.filter_append, List.length_append]
    by_cases hex : ∃ p, DialEvent.mapStore k p ∈ (Dial opts w c).events
    · obtain ⟨p, hp⟩ := hex
      obtain ⟨_, _, h3, h4⟩ := Dial_store opts w c k p hp
      rw [runEvents_no_store_of_present opts k cs _ p h3, h4]
      simp [List.filter_cons, DialEvent.storesKey]
    · have : (Dial opts w c).events.filter (DialEvent.storesKey k) = [] := by
        simp only [List.filter_eq_nil_iff]
        intro ev hev hst
        cases ev with
        | NewBastion a r => simp [DialEvent.storesKey] at hst
        | ForwardTo p a => simp [DialEvent.storesKey] at hst
        | mapStore k1 p =>
          have hk : k1 = k := by simpa [DialEvent.storesKey] using hst
          subst hk
          exact hex ⟨p, hev⟩
      rw [this]
      simpa using ih _


/-! ## The Dial closure: the claims on the registry -/

/-- C1. Calls of the Dial closure from any world `w`, in any sequence. Once a
call has stored the bastion `p` under the key `k` (which it does right after
`NewBastion` returned `p`), every later call with key `k` finds `p`: all it
does is `ForwardTo` on `p`, with no `NewBastion` and no store, and the
registry is the same after it as before. Over any sequence of calls at most
one store happens under `k`, and no call removes or replaces an entry that
is in the registry. -/
theorem Dial_get_or_create (opts : Opts) (w : World) (cs₁ : List Call) (c : Call)
    (cs₂ : List Call) (c' : Call) (k : String) (p : Ptr)
    (hstore : DialEvent.mapStore k p ∈ (Dial opts (runCalls opts w cs₁) c).events)
    (hkey : lookupKey c'.ctx = k) :
    (Dial opts (runCalls opts (Dial opts (runCalls opts w cs₁) c).world cs₂) c').events =
      [DialEvent.ForwardTo p c'.addr] ∧
    (Dial opts (runCalls opts (Dial opts (runCalls opts w cs₁) c).world cs₂) c').world.bastions =
      (runCalls opts (Dial opts (runCalls opts w cs₁) c).world cs₂).bastions ∧
    (Dial opts (runCalls opts w cs₁) c).events =
      [DialEvent.NewBastion (JoinHostPort c.ctx.BastionHost c.ctx.BastionPort) (.ok p),
       DialEvent.mapStore k p, DialEvent.ForwardTo p c.addr] ∧
    (∀ (k1 : String) (cs : List Call),
      ((runEvents opts w cs).filter (DialEvent.storesKey k1)).length ≤ 1) ∧
    (∀ (w1 : World) (c1 : Call) (k1 : String) (q : Ptr), w1.bastions.lookup k1 = some q →
      (Dial opts w1 c1).world.bastions.lookup k1 = some q) := by
  obtain ⟨_, _, h3, h4⟩ := Dial_store opts _ c k p hstore
  have hlater := runCalls_bastions_mono opts cs₂ _ k p h3
  rw [← hkey] at hlater
  obtain ⟨g1, g2⟩ := Dial_hit opts _ c' p hlater
  exact ⟨g1, g2, h4, fun k1 cs => runEvents_store_le_one opts k1 cs w,
    fun w1 c1 k1 q h => Dial_bastions_mono opts w1 c1 k1 q h⟩

/-- C1, on the first requests of a run: a request for `bastion1:22` registers
bastion 0; after a further request, the next request for `bastion1:22` is
forwarded through bastion 0 without any construction. -/
theorem Dial_get_or_create_witness :
    (Dial optsDefault
      (runCalls optsDefault (Dial optsDefault (runCalls optsDefault World.init []) callBastion1).world
        [callNoAgent]) callBastion1).events = [DialEvent.ForwardTo 0 callBastion1.addr] :=
  (Dial_get_or_create optsDefault World.init [] callBastion1 [callNoAgent] callBastion1
    "bastion1:22" 0 (by decide) (by decide)).1

/-- C2. The lookup key of the call is absent from the registry and
`NewBastion` fails with `e`: the Dial callback returns a nil stream and `e`,
the world (the registry and every bastion) is exactly as before, no entry is
there for the key, and `ForwardTo` is not invoked. -/
theorem Dial_NewBastion_failure (opts : Opts) (w : World) (c : Call) (e : GoError)
    (habs : w.bastions.lookup (lookupKey c.ctx) = none)
    (hnb : NewBastion c.nbEnv (JoinHostPort c.ctx.BastionHost c.ctx.BastionPort)
      opts.SshUser opts.SshKeyFile opts.Retries = .error e) :
    (Dial opts w c).conn = none ∧ (Dial opts w c).err = some e ∧
    (Dial opts w c).world.bastions = w.bastions ∧
    (Dial opts w c).world.heap = w.heap ∧
    (Dial opts w c).world.bastions.lookup (lookupKey c.ctx) = none ∧
    (∀ p a, DialEvent.ForwardTo p a ∉ (Dial opts w c).events) ∧
    (∀ k p, DialEvent.mapStore k p ∉ (Dial opts w c).events) ∧
    (Dial opts w c).fwd = [] := by
  rw [Dial_of_fail opts w c e habs hnb]
  refine ⟨rfl, rfl, rfl, rfl, habs, ?_, ?_, rfl⟩
  · intro p a h
    simp at h
  · intro k p h
    simp at h

/-- C2, on the first request of a run with the agent socket unreachable. -/
theorem Dial_NewBastion_failure_witness :
    (Dial optsDefault World.init callNoAgent).conn = none ∧
    (Dial optsDefault World.init callNoAgent).err = some (.ext 7) ∧
    (Dial optsDefault World.init callNoAgent).world.bastions = World.init.bastions :=
  have h := Dial_NewBastion_failure optsDefault World.init callNoAgent (.ext 7)
    (by decide) (by decide)
  ⟨h.1, h.2.1, h.2.2.1⟩

/-- C9 fails: two credential pairs with the same lookup key and different
relay addresses. The pairs (`2001:db8::1`, `22`) and (`2001:db8:`, `1:22`)
both give the key `2001:db8::1:22`, while `net.JoinHostPort` gives
`[2001:db8::1]:22` for the first and `[2001:db8:]:1:22` for the second. After
a request with the second pair has registered its bastion, a request with the
first pair is forwarded through that bastion and dials its address. -/
theorem lookupKey_collision_with_distinct_addresses :
    lookupKey callV6.ctx = lookupKey callOdd.ctx ∧
    JoinHostPort callV6.ctx.BastionHost callV6.ctx.BastionPort = "[2001:db8::1]:22" ∧
    JoinHostPort callOdd.ctx.BastionHost callOdd.ctx.BastionPort = "[2001:db8:]:1:22" ∧
    JoinHostPort callV6.ctx.BastionHost callV6.ctx.BastionPort ≠
      JoinHostPort callOdd.ctx.BastionHost callOdd.ctx.BastionPort ∧
    (Dial optsDefault (Dial optsDefault World.init callOdd).world callV6).events =
      [DialEvent.ForwardTo 0 dest] ∧
    (Dial optsDefault (Dial optsDefault World.init callOdd).world callV6).fwd =
      [Event.sshDial "[2001:db8:]:1:22" (.error (.ext 9))] := by
  decide


end Bastify
